import Mathlib

/-!
Shallow embedding of the remen-printing point-of-sale application.

Monetary amounts (`price`, `displayPrice`, `amount`, totals) are modelled as
rationals; quantities as integers.  A JavaScript `parseFloat` result is
modelled as `Option ℚ`: `none` stands for `NaN` (an unparsable input).
`handlePayment`, `updatePrice`, `updateName` and `handleAddWithdrawal` follow
the source in `src/pages/Cashier.tsx`, `src/pages/Reports.tsx`, the
withdrawals page and the products page.
-/

namespace RemenPrinting

/-- Product record, as in the `products` table and the `Product` interface. -/
structure Product where
  id : String
  code : String
  name : String
  price : ℚ
deriving DecidableEq

/-- Cart line, as in the `CartItem` interface of `Cashier.tsx`. -/
structure CartItem where
  product : Product
  quantity : ℤ
  displayPrice : ℚ
  displayName : String
deriving DecidableEq

/-- Embeds `addToCart` of `Cashier.tsx`: if a line for the product exists,
increment every matching line's quantity by 1, else append a fresh line at
quantity 1 with display price and name taken from the product. -/
def addToCart (product : Product) (cart : List CartItem) : List CartItem :=
  if ∃ item ∈ cart, item.product.id = product.id then
    cart.map fun item =>
      if item.product.id = product.id then
        { item with quantity := item.quantity + 1 }
      else item
  else
    cart ++ [{ product := product, quantity := 1,
               displayPrice := product.price, displayName := product.name }]

/-- Embeds `updateQuantity` of `Cashier.tsx`: the matching line's quantity is
set to `max 0 (quantity + delta)` and then every line with quantity `≤ 0` is
filtered out. -/
def updateQuantity (productId : String) (delta : ℤ) (cart : List CartItem) :
    List CartItem :=
  (cart.map fun item =>
      if item.product.id = productId then
        { item with quantity := max 0 (item.quantity + delta) }
      else item).filter fun item => 0 < item.quantity

/-- Embeds `updatePrice` of `Cashier.tsx` (the stricter variant): the new
price string is parsed (`none` = `NaN`); a missing or non-positive price is
rejected (`none`, a toast error and no cart change), otherwise the matching
line's display price is replaced. -/
def updatePrice (productId : String) (newPrice : Option ℚ)
    (cart : List CartItem) : Option (List CartItem) :=
  match newPrice with
  | none => none
  | some price =>
    if price ≤ 0 then none
    else some (cart.map fun item =>
      if item.product.id = productId then
        { item with displayPrice := price }
      else item)

/-- Cart state after `updatePrice`: a rejected input leaves the cart as it
was. -/
def cartAfterUpdatePrice (productId : String) (newPrice : Option ℚ)
    (cart : List CartItem) : List CartItem :=
  (updatePrice productId newPrice cart).getD cart

/-- JavaScript `String.prototype.trim()`: drop whitespace from both ends. -/
def strTrim (s : String) : String :=
  String.mk
    (((s.data.dropWhile Char.isWhitespace).reverse.dropWhile
        Char.isWhitespace).reverse)

/-- Embeds `updateName` of `Cashier.tsx` (the stricter variant): the name is
trimmed; an empty trimmed name is rejected (`none`), otherwise the matching
line's display name is replaced by the trimmed name. -/
def updateName (productId : String) (newName : String)
    (cart : List CartItem) : Option (List CartItem) :=
  let trimmedName := strTrim newName
  if trimmedName.length = 0 then none
  else some (cart.map fun item =>
    if item.product.id = productId then
      { item with displayName := trimmedName }
    else item)

/-- Cart state after the name update: a rejected input leaves the cart as it
was. -/
def cartAfterUpdateName (productId : String) (newName : String)
    (cart : List CartItem) : List CartItem :=
  (updateName productId newName cart).getD cart

/-- Embeds `removeFromCart` of `Cashier.tsx`. -/
def removeFromCart (productId : String) (cart : List CartItem) :
    List CartItem :=
  cart.filter fun item => item.product.id ≠ productId

/-- Embeds `totalAmount` of `Cashier.tsx`:
`cart.reduce((sum, item) => sum + item.displayPrice * item.quantity, 0)`. -/
def totalAmount (cart : List CartItem) : ℚ :=
  cart.foldl (fun sum item => sum + item.displayPrice * item.quantity) 0

/-- Transaction header, as inserted by `handlePayment`. -/
structure Transaction where
  total_amount : ℚ
  payment_amount : ℚ
  change_amount : ℚ
deriving DecidableEq

/-- Transaction line item, as inserted by `handlePayment`. -/
structure TransactionItem where
  product_code : String
  product_name : String
  quantity : ℤ
  price : ℚ
  subtotal : ℚ
deriving DecidableEq

/-- The `items` array built inside `handlePayment` from the cart. -/
def checkoutItems (cart : List CartItem) : List TransactionItem :=
  cart.map fun item =>
    { product_code := item.product.code
      product_name := item.displayName
      quantity := item.quantity
      price := item.displayPrice
      subtotal := item.displayPrice * item.quantity }

/-- Outcome of `handlePayment`: the cart afterwards, and the persisted
transaction with its items (`none` when validation failed and nothing was
written). -/
structure CheckoutResult where
  newCart : List CartItem
  persisted : Option (Transaction × List TransactionItem)
deriving DecidableEq

/-- Embeds `handlePayment` of `Cashier.tsx`.  `paymentAmount` is the
`parseFloat` of the payment input (`none` = `NaN`).  The guard
`if (!payment || payment < totalAmount)` rejects a `NaN`, a zero payment
(JavaScript falsiness) and any payment below the total, leaving the cart
untouched; otherwise one transaction and its items are persisted with
`change = payment - total` and the cart is cleared. -/
def handlePayment (cart : List CartItem) (paymentAmount : Option ℚ) :
    CheckoutResult :=
  match paymentAmount with
  | none => { newCart := cart, persisted := none }
  | some payment =>
    if payment = 0 ∨ payment < totalAmount cart then
      { newCart := cart, persisted := none }
    else
      { newCart := []
        persisted := some
          ({ total_amount := totalAmount cart
             payment_amount := payment
             change_amount := payment - totalAmount cart },
           checkoutItems cart) }

/-- Transaction item row as loaded and edited in `Reports.tsx` (the stored
`subtotal` column is part of the record). -/
structure ReportItem where
  id : String
  product_code : String
  product_name : String
  quantity : ℤ
  price : ℚ
  subtotal : ℚ
deriving DecidableEq

/-- Transaction header row as loaded in `Reports.tsx`. -/
structure ReportTransaction where
  id : String
  total_amount : ℚ
  payment_amount : ℚ
  change_amount : ℚ
deriving DecidableEq

/-- Embeds `updateItemQuantity` of `Reports.tsx`: the matching edit row gets
the new quantity and `subtotal = quantity * price`. -/
def updateItemQuantity (itemId : String) (quantity : ℤ)
    (editItems : List ReportItem) : List ReportItem :=
  editItems.map fun item =>
    if item.id = itemId then
      { item with quantity := quantity, subtotal := quantity * item.price }
    else item

/-- Embeds `updateItemPrice` of `Reports.tsx`: the matching edit row gets the
new price and `subtotal = quantity * price`. -/
def updateItemPrice (itemId : String) (price : ℚ)
    (editItems : List ReportItem) : List ReportItem :=
  editItems.map fun item =>
    if item.id = itemId then
      { item with price := price, subtotal := item.quantity * price }
    else item

/-- The `newTotal` of `handleSaveEdit`:
`editItems.reduce((sum, item) => sum + item.subtotal, 0)`. -/
def newTotalOf (editItems : List ReportItem) : ℚ :=
  editItems.foldl (fun sum item => sum + item.subtotal) 0

/-- What `handleSaveEdit` writes back: the updated transaction header and the
updated item rows. -/
structure SaveEditResult where
  savedTransaction : ReportTransaction
  savedItems : List ReportItem
deriving DecidableEq

/-- Embeds `handleSaveEdit` of `Reports.tsx`: the transaction is updated with
`total_amount = newTotal`, the unchanged payment amount and
`change_amount = payment - newTotal`; each item is updated with
`subtotal = quantity * price`. -/
def handleSaveEdit (editingTransaction : ReportTransaction)
    (editItems : List ReportItem) : SaveEditResult :=
  let newTotal := newTotalOf editItems
  { savedTransaction :=
      { editingTransaction with
        total_amount := newTotal
        change_amount := editingTransaction.payment_amount - newTotal }
    savedItems := editItems.map fun item =>
      { item with subtotal := item.quantity * item.price } }

/-- Withdrawal record, as in the `withdrawals` table. -/
structure Withdrawal where
  withdrawal_date : String
  withdrawal_name : String
  amount : ℚ
deriving DecidableEq

/-- The revenue computed by `fetchData` of the withdrawals page:
`transactions.reduce((sum, t) => sum + t.total_amount, 0)` over the loaded
transaction totals. -/
def totalRevenueOf (transactionTotals : List ℚ) : ℚ :=
  transactionTotals.foldl (fun sum t => sum + t) 0

/-- The `totalWithdrawals` of the withdrawals page:
`withdrawals.reduce((sum, w) => sum + w.amount, 0)`. -/
def totalWithdrawalsOf (withdrawals : List Withdrawal) : ℚ :=
  withdrawals.foldl (fun sum w => sum + w.amount) 0

/-- The `availableBalance` of the withdrawals page:
`totalRevenue - totalWithdrawals`. -/
def availableBalanceOf (transactionTotals : List ℚ)
    (withdrawals : List Withdrawal) : ℚ :=
  totalRevenueOf transactionTotals - totalWithdrawalsOf withdrawals

/-- Embeds `handleAddWithdrawal` of the withdrawals page.  `amountInput` is
the `parseFloat` of the amount field (`none` = `NaN`).  A blank trimmed name,
a `NaN` or non-positive amount, or an amount above the available balance is
rejected (`none`, no record inserted); otherwise the inserted withdrawal
record is returned. -/
def handleAddWithdrawal (transactionTotals : List ℚ)
    (withdrawals : List Withdrawal) (withdrawalDate : String)
    (withdrawalName : String) (amountInput : Option ℚ) : Option Withdrawal :=
  if strTrim withdrawalName = "" then none
  else
    match amountInput with
    | none => none
    | some amount =>
      if amount ≤ 0 then none
      else if availableBalanceOf transactionTotals withdrawals < amount then
        none
      else
        some { withdrawal_date := withdrawalDate
               withdrawal_name := withdrawalName
               amount := amount }

/-- JavaScript `parseInt` restricted to what the products page feeds it: the
leading decimal digits of the string are read as a natural number; a string
with no leading digit gives `NaN` (`none`). -/
def jsParseIntNat (s : String) : Option ℕ :=
  let ds := s.data.takeWhile Char.isDigit
  if ds.isEmpty then none
  else some (ds.foldl (fun n c => 10 * n + (c.toNat - 48)) 0)

/-- JavaScript `padStart(3, "0")`: left-pad with zeros up to length 3. -/
def padStartZero3 (s : String) : String :=
  String.mk (List.replicate (3 - s.length) '0') ++ s

/-- The product code the store returns for
`order("code", descending).limit(1)`: the greatest code in string order,
`none` when there are no products. -/
def listMaxStr (codes : List String) : Option String :=
  codes.foldl
    (fun acc s =>
      match acc with
      | none => some s
      | some m => if m.data < s.data then some s else some m)
    none

/-- Embeds `generateNextCode` of the products page: take the greatest
existing code, parse its digits after the leading character, add one and
render it zero-padded after `P`; `P001` when no products exist.  A greatest
code whose tail does not parse makes `parseInt` return `NaN` and the
template renders `PNaN`. -/
def generateNextCode (codes : List String) : String :=
  match listMaxStr codes with
  | none => "P001"
  | some lastCode =>
    match jsParseIntNat (lastCode.drop 1) with
    | none => "PNaN"
    | some num => "P" ++ padStartZero3 (Nat.repr (num + 1))

/-- The code `handleSubmit` of the products page stores: the trimmed form
code, or the generated next code when the trimmed form code is blank. -/
def submittedCode (formCode : String) (codes : List String) : String :=
  let code := strTrim formCode
  if code = "" then generateNextCode codes else code

/-! Shared example data used by witnesses: the spec's example cart with two
lines, qty 2 @ 500 and qty 1 @ 2000. -/

/-- Example product priced 500. -/
def exProduct1 : Product := ⟨"id1", "P002", "Print BW", 500⟩

/-- Example product priced 2000. -/
def exProduct2 : Product := ⟨"id2", "P003", "Print Color", 2000⟩

/-- The spec's example cart: qty 2 @ 500 plus qty 1 @ 2000, total 3000. -/
def exCart : List CartItem :=
  [⟨exProduct1, 2, 500, "Print BW"⟩, ⟨exProduct2, 1, 2000, "Print Color"⟩]

/-- A cart holding one zero-priced line (a product whose stored price is 0
reaches the cart this way), so its total is 0. -/
def exZeroCart : List CartItem :=
  [⟨⟨"id9", "P009", "Gratis", 0⟩, 1, 0, "Gratis"⟩]

/-- Example edited report items whose `subtotal` fields are consistent. -/
def exEditItems : List ReportItem :=
  [⟨"t1", "P002", "Print BW", 3, 500, 1500⟩,
   ⟨"t2", "P003", "Print Color", 1, 2000, 2000⟩]

/-- Example report transaction header before an edit. -/
def exReportTransaction : ReportTransaction := ⟨"tr1", 3000, 5000, 2000⟩

/-! Helper lemmas. -/

/-- Folding addition of `f` over a list from `a` is `a` plus the sum of the
mapped list. -/
theorem foldl_add_map {α : Type} (f : α → ℚ) (l : List α) (a : ℚ) :
    l.foldl (fun sum x => sum + f x) a = a + (l.map f).sum := by
  induction l generalizing a with
  | nil => simp
  | cons x xs ih => simp [ih, add_assoc]

/-- The cart total is the sum of the per-line products. -/
theorem totalAmount_eq_sum (cart : List CartItem) :
    totalAmount cart =
      (cart.map fun item => item.displayPrice * (item.quantity : ℚ)).sum := by
  unfold totalAmount
  rw [foldl_add_map, zero_add]

/-- The `newTotal` of the report edit is the sum of the item subtotals. -/
theorem newTotalOf_eq_sum (editItems : List ReportItem) :
    newTotalOf editItems = (editItems.map fun item => item.subtotal).sum := by
  unfold newTotalOf
  rw [show (fun (sum : ℚ) (item : ReportItem) => sum + item.subtotal) =
        fun sum item => sum + (fun i : ReportItem => i.subtotal) item from rfl,
      foldl_add_map, zero_add]

/-- C2: for every cart, `total()` equals the sum over its lines of
`displayPrice * quantity`; a cart with no lines has total 0. -/
theorem C2_total_is_sum_of_lines :
    (∀ cart : List CartItem,
        totalAmount cart =
          (cart.map fun item => item.displayPrice * (item.quantity : ℚ)).sum) ∧
    totalAmount [] = 0 :=
  ⟨totalAmount_eq_sum, rfl⟩

/-- C5: saving a report edit stores a transaction whose total is the sum of
the edited items' subtotals, whose payment amount is kept, and whose change
is that payment minus the new total. -/
theorem C5_save_edit_recomputes_total_and_change :
    ∀ (t : ReportTransaction) (editItems : List ReportItem),
      (handleSaveEdit t editItems).savedTransaction.total_amount =
          (editItems.map fun item => item.subtotal).sum ∧
      (handleSaveEdit t editItems).savedTransaction.payment_amount =
          t.payment_amount ∧
      (handleSaveEdit t editItems).savedTransaction.change_amount =
          t.payment_amount - (editItems.map fun item => item.subtotal).sum := by
  intro t editItems
  refine ⟨?_, rfl, ?_⟩ <;>
    simp [handleSaveEdit, newTotalOf_eq_sum]

/-- A report item is consistent when its stored subtotal is its quantity
times its price (every item the application writes satisfies this). -/
def ItemConsistent (item : ReportItem) : Prop :=
  item.subtotal = (item.quantity : ℚ) * item.price

/-- Sum of the subtotals of checkout items equals the cart total. -/
theorem checkoutItems_sum (cart : List CartItem) :
    ((checkoutItems cart).map fun item => item.subtotal).sum =
      totalAmount cart := by
  rw [totalAmount_eq_sum]
  unfold checkoutItems
  rw [List.map_map]
  rfl

/-- C3: a transaction persisted by checkout has total equal to the sum of
its item subtotals, a report edit saved from consistent items keeps that
equality, and the two report item editors preserve item consistency. -/
theorem C3_subtotals_sum_to_total :
    (∀ (cart : List CartItem) (payment : Option ℚ) (t : Transaction)
        (items : List TransactionItem),
        (handlePayment cart payment).persisted = some (t, items) →
        (items.map fun item => item.subtotal).sum = t.total_amount) ∧
    (∀ (t : ReportTransaction) (editItems : List ReportItem),
        (∀ item ∈ editItems, ItemConsistent item) →
        ((handleSaveEdit t editItems).savedItems.map
            fun item => item.subtotal).sum =
          (handleSaveEdit t editItems).savedTransaction.total_amount) ∧
    (∀ (itemId : String) (q : ℤ) (editItems : List ReportItem),
        (∀ item ∈ editItems, ItemConsistent item) →
        ∀ item ∈ updateItemQuantity itemId q editItems, ItemConsistent item) ∧
    (∀ (itemId : String) (p : ℚ) (editItems : List ReportItem),
        (∀ item ∈ editItems, ItemConsistent item) →
        ∀ item ∈ updateItemPrice itemId p editItems, ItemConsistent item) := by
  refine ⟨?_, ?_, ?_, ?_⟩
  · intro cart payment t items h
    match payment with
    | none => simp [handlePayment] at h
    | some p =>
      by_cases hc : p = 0 ∨ p < totalAmount cart
      · simp [handlePayment, hc] at h
      · simp [handlePayment, hc] at h
        obtain ⟨ht, hi⟩ := h
        rw [← hi, checkoutItems_sum, ← ht]
  · intro t editItems h
    unfold handleSaveEdit
    simp only
    rw [List.map_map, newTotalOf_eq_sum]
    congr 1
    apply List.map_congr_left
    intro item hitem
    exact (h item hitem).symm
  · intro itemId q editItems h item hitem
    unfold updateItemQuantity at hitem
    obtain ⟨x, hxmem, hx⟩ := List.mem_map.mp hitem
    by_cases hid : x.id = itemId
    · rw [if_pos hid] at hx
      rw [← hx]
      rfl
    · rw [if_neg hid] at hx
      rw [← hx]
      exact h x hxmem
  · intro itemId p editItems h item hitem
    unfold updateItemPrice at hitem
    obtain ⟨x, hxmem, hx⟩ := List.mem_map.mp hitem
    by_cases hid : x.id = itemId
    · rw [if_pos hid] at hx
      rw [← hx]
      rfl
    · rw [if_neg hid] at hx
      rw [← hx]
      exact h x hxmem

/-- Witness for C3: the invariant instantiated on the example edit, whose
items are consistent. -/
theorem C3_subtotals_sum_to_total_witness :
    ((handleSaveEdit exReportTransaction exEditItems).savedItems.map
        fun item => item.subtotal).sum =
      (handleSaveEdit exReportTransaction exEditItems).savedTransaction.total_amount := by
  apply C3_subtotals_sum_to_total.2.1
  intro item hitem
  simp only [exEditItems, List.mem_cons, List.not_mem_nil, or_false] at hitem
  rcases hitem with h | h <;> subst h <;> norm_num [ItemConsistent]

/-- Counterexample for C1 as stated: on a cart whose total is 0, a payment
of 0 is present and not less than the total, yet `handlePayment` rejects it
(JavaScript `!payment` is true for 0) and persists nothing. -/
theorem C1_counterexample :
    (some (0 : ℚ)).isSome = true ∧
    ¬ (0 : ℚ) < totalAmount exZeroCart ∧
    (handlePayment exZeroCart (some 0)).persisted = none ∧
    (handlePayment exZeroCart (some 0)).newCart = exZeroCart := by
  refine ⟨rfl, ?_, ?_, ?_⟩
  · simp [totalAmount, exZeroCart]
  · simp [handlePayment]
  · simp [handlePayment]

/-- C1 (amended): checkout fails validation with no state change when the
payment is absent, equal to zero, or less than the cart total; otherwise it
computes `change = payment - total`, persists one transaction plus its
items, and clears the cart. -/
theorem C1_checkout :
    (∀ cart : List CartItem, handlePayment cart none = ⟨cart, none⟩) ∧
    (∀ cart : List CartItem, handlePayment cart (some 0) = ⟨cart, none⟩) ∧
    (∀ (cart : List CartItem) (p : ℚ), p < totalAmount cart →
        handlePayment cart (some p) = ⟨cart, none⟩) ∧
    (∀ (cart : List CartItem) (p : ℚ), p ≠ 0 → totalAmount cart ≤ p →
        handlePayment cart (some p) =
          ⟨[], some ({ total_amount := totalAmount cart
                       payment_amount := p
                       change_amount := p - totalAmount cart },
                     checkoutItems cart)⟩) := by
  refine ⟨fun cart => rfl, ?_, ?_, ?_⟩
  · intro cart
    simp [handlePayment]
  · intro cart p hp
    simp [handlePayment, hp]
  · intro cart p hp0 hple
    simp [handlePayment, hp0, not_lt.mpr hple]

/-- Witness for C1: the spec's example, total 3000 and payment 5000 give
change 2000 and a cleared cart. -/
theorem C1_checkout_witness :
    handlePayment exCart (some 5000) =
      ⟨[], some ({ total_amount := 3000, payment_amount := 5000,
                   change_amount := 2000 }, checkoutItems exCart)⟩ := by
  have htot : totalAmount exCart = 3000 := by
    simp [totalAmount, exCart, exProduct1, exProduct2]
    norm_num
  have h := C1_checkout.2.2.2 exCart 5000 (by norm_num) (by rw [htot]; norm_num)
  rw [h, htot]
  norm_num

/-- C4: with a non-blank withdrawal name, the withdrawal is rejected (no
record inserted) exactly when the amount is absent or non-positive or
exceeds the available balance; otherwise the record is inserted; and the
available balance is total revenue minus total withdrawals over the loaded
ledgers. -/
theorem C4_withdrawal_validation (transactionTotals : List ℚ)
    (withdrawals : List Withdrawal) (date name : String)
    (amountInput : Option ℚ) (hname : strTrim name ≠ "") :
    (handleAddWithdrawal transactionTotals withdrawals date name amountInput
        = none ↔
      amountInput = none ∨
        ∃ a, amountInput = some a ∧
          (a ≤ 0 ∨ availableBalanceOf transactionTotals withdrawals < a)) ∧
    (∀ a, amountInput = some a → 0 < a →
        a ≤ availableBalanceOf transactionTotals withdrawals →
        handleAddWithdrawal transactionTotals withdrawals date name amountInput
          = some ⟨date, name, a⟩) ∧
    availableBalanceOf transactionTotals withdrawals =
      totalRevenueOf transactionTotals - totalWithdrawalsOf withdrawals := by
  refine ⟨?_, ?_, rfl⟩
  · unfold handleAddWithdrawal
    rw [if_neg hname]
    match amountInput with
    | none => simp
    | some a =>
      by_cases h0 : a ≤ 0
      · simp [h0]
      · by_cases hb : availableBalanceOf transactionTotals withdrawals < a
        · simp [h0, hb]
        · simp [h0, hb]
  · intro a ha h0 hle
    subst ha
    unfold handleAddWithdrawal
    rw [if_neg hname]
    simp [not_le.mpr h0, not_lt.mpr hle]

/-- Witness for C4: the spec's example, revenue 100000 and withdrawals 30000
give balance 70000, and an 80000 request is rejected. -/
theorem C4_withdrawal_validation_witness :
    availableBalanceOf [100000] [⟨"2024-01-01", "modal", 30000⟩] = 70000 ∧
    handleAddWithdrawal [100000] [⟨"2024-01-01", "modal", 30000⟩]
        "2024-01-02" "owner" (some 80000) = none := by
  have hbal : availableBalanceOf [100000] [⟨"2024-01-01", "modal", 30000⟩]
      = 70000 := by
    simp [availableBalanceOf, totalRevenueOf, totalWithdrawalsOf]
    norm_num
  have h := C4_withdrawal_validation [100000] [⟨"2024-01-01", "modal", 30000⟩]
    "2024-01-02" "owner" (some 80000) (by decide)
  refine ⟨hbal, h.1.mpr (Or.inr ⟨80000, rfl, Or.inr ?_⟩)⟩
  rw [hbal]
  norm_num

/-- Spec-side description of `setQuantity(lineId, delta)` written from the
claim's words: the targeted line's quantity is clamped to at least 0 and the
line is removed when it reaches 0; every other line is kept unchanged. -/
def setQuantitySpec (productId : String) (delta : ℤ)
    (cart : List CartItem) : List CartItem :=
  cart.filterMap fun item =>
    if item.product.id = productId then
      if max 0 (item.quantity + delta) = 0 then none
      else some { item with quantity := max 0 (item.quantity + delta) }
    else some item

/-- C6: on a cart whose lines all have quantity at least 1, `updateQuantity`
behaves exactly as the claim says (clamp to 0, remove at 0, other lines
untouched), and every surviving line again has quantity at least 1. -/
theorem C6_set_quantity (productId : String) (delta : ℤ)
    (cart : List CartItem) (h : ∀ item ∈ cart, 1 ≤ item.quantity) :
    updateQuantity productId delta cart =
      setQuantitySpec productId delta cart ∧
    ∀ item ∈ updateQuantity productId delta cart, 1 ≤ item.quantity := by
  constructor
  · induction cart with
    | nil => rfl
    | cons x xs ih =>
      have hx : (1 : ℤ) ≤ x.quantity := h x (List.mem_cons_self x xs)
      have hxs := ih fun item hi => h item (List.mem_cons_of_mem x hi)
      unfold updateQuantity setQuantitySpec at hxs ⊢
      by_cases hid : x.product.id = productId
      · by_cases hq : max 0 (x.quantity + delta) = 0
        · have hq1 : x.quantity + delta ≤ 0 := by omega
          have hq2 : ¬ (0 : ℤ) < max 0 (x.quantity + delta) := by omega
          simp [hid, hq, hq1, hq2, hxs]
        · have hq1 : ¬ x.quantity + delta ≤ 0 := by omega
          have hpos : (0 : ℤ) < max 0 (x.quantity + delta) := by omega
          simp [hid, hq, hq1, hpos, hxs]
      · have hpos : (0 : ℤ) < x.quantity := by omega
        simp [hid, hpos, hxs]
  · intro item hitem
    unfold updateQuantity at hitem
    have := (List.mem_filter.mp hitem).2
    simp only [decide_eq_true_eq] at this
    omega

/-- Witness for C6: taking 2 off the first example line removes it and keeps
the other line unchanged. -/
theorem C6_set_quantity_witness :
    updateQuantity "id1" (-2) exCart =
      [⟨exProduct2, 1, 2000, "Print Color"⟩] ∧
    ∀ item ∈ updateQuantity "id1" (-2) exCart, 1 ≤ item.quantity := by
  have h := C6_set_quantity "id1" (-2) exCart (by decide)
  refine ⟨?_, h.2⟩
  rw [h.1]
  decide

/-- Mapping the quantity bump over lines none of which match the product id
changes nothing. -/
theorem map_bump_of_no_match (pid : String) (xs : List CartItem)
    (h : ∀ x ∈ xs, x.product.id ≠ pid) :
    (xs.map fun item =>
        if item.product.id = pid then
          { item with quantity := item.quantity + 1 }
        else item) = xs := by
  have : (xs.map fun item =>
      if item.product.id = pid then
        { item with quantity := item.quantity + 1 }
      else item) = xs.map id := by
    apply List.map_congr_left
    intro x hx
    simp [h x hx]
  rw [this, List.map_id]

/-- C7: on a cart with pairwise-distinct product ids, adding a product whose
line already sits between `pre` and `post` bumps exactly that line's
quantity by one and leaves `pre` and `post` as they were; adding a product
with no line appends a fresh line at quantity 1 whose display price and name
come from the product. -/
theorem C7_add_to_cart (product : Product) (cart : List CartItem)
    (hnodup : (cart.map fun item => item.product.id).Nodup) :
    (∀ (pre : List CartItem) (line : CartItem) (post : List CartItem),
        cart = pre ++ line :: post →
        line.product.id = product.id →
        addToCart product cart =
          pre ++ { line with quantity := line.quantity + 1 } :: post) ∧
    ((∀ item ∈ cart, item.product.id ≠ product.id) →
        addToCart product cart =
          cart ++ [{ product := product, quantity := 1,
                     displayPrice := product.price,
                     displayName := product.name }]) := by
  constructor
  · intro pre line post hcart hline
    subst hcart
    have hmem : line ∈ pre ++ line :: post :=
      List.mem_append_right pre (List.mem_cons_self line post)
    unfold addToCart
    rw [if_pos ⟨line, hmem, hline⟩]
    rw [List.map_append, List.map_cons, if_pos hline]
    have hids := hnodup
    rw [List.map_append, List.map_cons, List.nodup_append] at hids
    obtain ⟨hpre, hcons, hdisj⟩ := hids
    have hprene : ∀ x ∈ pre, x.product.id ≠ product.id := by
      intro x hx hxid
      exact hdisj (List.mem_map_of_mem _ hx)
        (by rw [hxid, ← hline]; exact List.mem_cons_self _ _)
    have hpostne : ∀ x ∈ post, x.product.id ≠ product.id := by
      intro x hx hxid
      have hhead := (List.nodup_cons.mp hcons).1
      have hx2 : x.product.id ∈ List.map (fun item => item.product.id) post :=
        List.mem_map_of_mem _ hx
      rw [hxid, ← hline] at hx2
      exact hhead hx2
    rw [map_bump_of_no_match product.id pre hprene,
      map_bump_of_no_match product.id post hpostne]
  · intro hnone
    unfold addToCart
    rw [if_neg]
    push_neg
    exact hnone

/-- Witness for C7: adding the first example product to the example cart
bumps its line from quantity 2 to 3; adding a new product to the empty cart
appends its default line. -/
theorem C7_add_to_cart_witness :
    addToCart exProduct1 exCart =
      [⟨exProduct1, 3, 500, "Print BW"⟩,
       ⟨exProduct2, 1, 2000, "Print Color"⟩] ∧
    addToCart exProduct1 [] =
      [⟨exProduct1, 1, 500, "Print BW"⟩] := by
  constructor
  · have h := (C7_add_to_cart exProduct1 exCart (by decide)).1
      [] ⟨exProduct1, 2, 500, "Print BW"⟩ [⟨exProduct2, 1, 2000, "Print Color"⟩]
      (by decide) (by decide)
    rw [h]
    decide
  · have h := (C7_add_to_cart exProduct1 [] (by decide)).2 (by decide)
    rw [h]
    decide

/-- Reading a mapped list at an in-range index is the function applied to
the original entry, whatever the defaults. -/
theorem getD_map_lt {α β : Type} (f : α → β) (l : List α) (i : ℕ)
    (hi : i < l.length) (d : β) (d' : α) :
    (l.map f).getD i d = f (l.getD i d') := by
  rw [List.getD_eq_getElem?_getD, List.getD_eq_getElem?_getD,
    List.getElem?_map, List.getElem?_eq_getElem hi]
  simp

/-- A string has length 0 exactly when it is empty. -/
theorem str_length_zero_iff (s : String) : s.length = 0 ↔ s = "" := by
  cases s with
  | mk data =>
    constructor
    · intro h
      have hd : data = [] := List.length_eq_zero.mp h
      rw [hd]
    · intro h
      rw [h]
      rfl

/-- Counterexample for C8 as stated: the price 0 is numeric and
non-negative, yet `updatePrice` rejects it (the guard is `price <= 0`) and
the cart is left unchanged. -/
theorem C8_counterexample :
    (0 : ℚ) ≤ 0 ∧
    updatePrice "id1" (some 0) exCart = none ∧
    cartAfterUpdatePrice "id1" (some 0) exCart = exCart := by
  refine ⟨le_refl 0, ?_, ?_⟩ <;> simp [updatePrice, cartAfterUpdatePrice]

/-- C8 (amended): `updatePrice` accepts exactly the numeric positive prices
and `updateName` exactly the names that are non-empty after trimming; an
accepted override rewrites only the targeted line's display field, and a
rejected input leaves the cart unchanged. -/
theorem C8_display_overrides (productId : String) (newPrice : Option ℚ)
    (newName : String) (cart : List CartItem) :
    ((updatePrice productId newPrice cart).isSome ↔
        ∃ p, newPrice = some p ∧ 0 < p) ∧
    ((updateName productId newName cart).isSome ↔ strTrim newName ≠ "") ∧
    (updatePrice productId newPrice cart = none →
        cartAfterUpdatePrice productId newPrice cart = cart) ∧
    (updateName productId newName cart = none →
        cartAfterUpdateName productId newName cart = cart) ∧
    (∀ p, newPrice = some p → 0 < p →
        (cartAfterUpdatePrice productId newPrice cart).length = cart.length ∧
        ∀ i : ℕ, i < cart.length → ∀ d : CartItem,
          (cartAfterUpdatePrice productId newPrice cart).getD i d =
            (if (cart.getD i d).product.id = productId then
              { cart.getD i d with displayPrice := p }
            else cart.getD i d)) ∧
    (strTrim newName ≠ "" →
        (cartAfterUpdateName productId newName cart).length = cart.length ∧
        ∀ i : ℕ, i < cart.length → ∀ d : CartItem,
          (cartAfterUpdateName productId newName cart).getD i d =
            (if (cart.getD i d).product.id = productId then
              { cart.getD i d with displayName := strTrim newName }
            else cart.getD i d)) := by
  refine ⟨?_, ?_, ?_, ?_, ?_, ?_⟩
  · match newPrice with
    | none => simp [updatePrice]
    | some p =>
      by_cases hp : p ≤ 0
      · simp [updatePrice, hp, not_lt.mpr hp]
      · simp [updatePrice, hp, not_le.mp hp]
  · unfold updateName
    by_cases hn : (strTrim newName).length = 0
    · simp [hn, (str_length_zero_iff _).mp hn]
    · simp [hn]
      exact fun h => hn (by rw [h]; rfl)
  · intro h
    simp [cartAfterUpdatePrice, h]
  · intro h
    simp [cartAfterUpdateName, h]
  · intro p hp hpos
    subst hp
    have hup : updatePrice productId (some p) cart =
        some (cart.map fun item =>
          if item.product.id = productId then
            { item with displayPrice := p }
          else item) := by
      simp [updatePrice, not_le.mpr hpos]
    refine ⟨by simp [cartAfterUpdatePrice, hup], ?_⟩
    intro i hi d
    simp only [cartAfterUpdatePrice, hup, Option.getD_some]
    exact getD_map_lt _ cart i hi d d
  · intro hn
    have hlen : ¬ (strTrim newName).length = 0 := by
      intro h0
      exact hn ((str_length_zero_iff _).mp h0)
    have hup : updateName productId newName cart =
        some (cart.map fun item =>
          if item.product.id = productId then
            { item with displayName := strTrim newName }
          else item) := by
      unfold updateName
      rw [if_neg hlen]
    refine ⟨by simp [cartAfterUpdateName, hup], ?_⟩
    intro i hi d
    simp only [cartAfterUpdateName, hup, Option.getD_some]
    exact getD_map_lt _ cart i hi d d

/-- Witness for C8: a price of 750 and the name `"  BW  "` are accepted on
the example cart, rewriting the first line's display price to 750 and its
display name to the trimmed `"BW"`. -/
theorem C8_display_overrides_witness :
    (updatePrice "id1" (some 750) exCart).isSome = true ∧
    (cartAfterUpdatePrice "id1" (some 750) exCart).getD 0
        ⟨exProduct1, 2, 500, "Print BW"⟩ =
      ⟨exProduct1, 2, 750, "Print BW"⟩ ∧
    (cartAfterUpdateName "id1" "  BW  " exCart).getD 0
        ⟨exProduct1, 2, 500, "Print BW"⟩ =
      ⟨exProduct1, 2, 500, "BW"⟩ := by
  have h := C8_display_overrides "id1" (some 750) "  BW  " exCart
  refine ⟨h.1.mpr ⟨750, rfl, by norm_num⟩, ?_, ?_⟩
  · have h5 := h.2.2.2.2.1 750 rfl (by norm_num)
    rw [h5.2 0 (by decide) _]
    decide
  · have h6 := h.2.2.2.2.2 (by decide)
    rw [h6.2 0 (by decide) _]
    decide

/-- Folding the string-max step from `some m` yields an element of `m :: l`
that bounds every element of `m :: l` from above. -/
theorem foldl_max_str (l : List String) :
    ∀ m g : String,
      l.foldl
        (fun acc s =>
          match acc with
          | none => some s
          | some m' => if m'.data < s.data then some s else some m') (some m)
        = some g →
      g ∈ m :: l ∧ ∀ c ∈ m :: l, c ≤ g := by
  induction l with
  | nil =>
    intro m g h
    have hmg : m = g := Option.some.inj (by simpa using h)
    subst hmg
    refine ⟨List.mem_cons_self _ _, ?_⟩
    intro c hc
    have hcm : c = m := by simpa using hc
    subst hcm
    exact le_refl c
  | cons s t ih =>
    intro m g h
    by_cases hlt : m.data < s.data
    · rw [List.foldl_cons] at h
      simp only [hlt, if_true] at h
      obtain ⟨hmem, hle⟩ := ih s g h
      have hms : m < s := String.lt_iff_toList_lt.mpr hlt
      have hsg : s ≤ g := hle s (List.mem_cons_self _ _)
      refine ⟨List.mem_cons_of_mem m hmem, ?_⟩
      intro c hc
      rcases List.mem_cons.mp hc with rfl | hc2
      · exact le_trans (le_of_lt hms) hsg
      · exact hle c hc2
    · rw [List.foldl_cons] at h
      simp only [hlt, if_false] at h
      obtain ⟨hmem, hle⟩ := ih m g h
      have hsm : s ≤ m := by
        by_contra hc
        exact hlt (String.lt_iff_toList_lt.mp (not_le.mp hc))
      have hmg : m ≤ g := hle m (List.mem_cons_self _ _)
      constructor
      · rcases List.mem_cons.mp hmem with rfl | hg2
        · exact List.mem_cons_self _ _
        · exact List.mem_cons_of_mem _ (List.mem_cons_of_mem _ hg2)
      · intro c hc
        rcases List.mem_cons.mp hc with rfl | hc2
        · exact hmg
        · rcases List.mem_cons.mp hc2 with rfl | hc3
          · exact le_trans hsm hmg
          · exact hle c (List.mem_cons_of_mem _ hc3)

/-- C9: with no products the generated code is `P001`; the store query
models the greatest existing code in string order; when that code's tail
parses as a number `n` the generated code is `P` followed by `n + 1`
zero-padded to three digits; and a blank submitted code is replaced by the
generated one. -/
theorem C9_generate_next_code :
    generateNextCode [] = "P001" ∧
    (∀ (codes : List String) (g : String), listMaxStr codes = some g →
        g ∈ codes ∧ ∀ c ∈ codes, c ≤ g) ∧
    (∀ (codes : List String) (g : String) (n : ℕ),
        listMaxStr codes = some g →
        jsParseIntNat (g.drop 1) = some n →
        generateNextCode codes = "P" ++ padStartZero3 (Nat.repr (n + 1))) ∧
    (∀ (formCode : String) (codes : List String), strTrim formCode = "" →
        submittedCode formCode codes = generateNextCode codes) := by
  refine ⟨rfl, ?_, ?_, ?_⟩
  · intro codes g h
    match codes with
    | [] => simp [listMaxStr] at h
    | c :: cs =>
      unfold listMaxStr at h
      rw [List.foldl_cons] at h
      exact foldl_max_str cs c g h
  · intro codes g n hmax hparse
    simp [generateNextCode, hmax, hparse]
  · intro formCode codes h
    unfold submittedCode
    simp [h]

/-- Witness for C9: with existing codes `P001` and `P002` the next code is
`P003`, also through a blank form submission. -/
theorem C9_generate_next_code_witness :
    generateNextCode ["P001", "P002"] = "P003" ∧
    submittedCode "   " ["P001", "P002"] = "P003" := by
  have h3 := C9_generate_next_code.2.2.1 ["P001", "P002"] "P002" 2
    (by decide) (by decide)
  have h4 := C9_generate_next_code.2.2.2 "   " ["P001", "P002"] (by decide)
  constructor
  · rw [h3]
    decide
  · rw [h4, h3]
    decide

/-- Cart invariant: product ids are pairwise distinct and every line has
quantity at least 1. -/
def CartInv (cart : List CartItem) : Prop :=
  (cart.map fun item => item.product.id).Nodup ∧
  ∀ item ∈ cart, 1 ≤ item.quantity

/-- Mapping an id-preserving function over a cart keeps the id list. -/
theorem map_ids_eq {f : CartItem → CartItem}
    (hf : ∀ x, (f x).product.id = x.product.id) (l : List CartItem) :
    ((l.map f).map fun item => item.product.id) =
      l.map fun item => item.product.id := by
  rw [List.map_map]
  apply List.map_congr_left
  intro x _
  exact hf x

/-- A map that keeps ids and quantities preserves the cart invariant. -/
theorem cartInv_map_pres (f : CartItem → CartItem)
    (hfid : ∀ x, (f x).product.id = x.product.id)
    (hfq : ∀ x, (f x).quantity = x.quantity)
    (cart : List CartItem) (h : CartInv cart) : CartInv (cart.map f) := by
  obtain ⟨hnd, hq⟩ := h
  constructor
  · rw [map_ids_eq hfid]
    exact hnd
  · intro item hitem
    obtain ⟨x, hxmem, hfx⟩ := List.mem_map.mp hitem
    rw [← hfx, hfq x]
    exact hq x hxmem

/-- A sublist of a cart satisfying the invariant satisfies it again. -/
theorem cartInv_sublist {l cart : List CartItem} (hs : l.Sublist cart)
    (h : CartInv cart) : CartInv l := by
  obtain ⟨hnd, hq⟩ := h
  exact ⟨hnd.sublist (hs.map _), fun item hitem => hq item (hs.mem hitem)⟩

/-- C10: every cart operation preserves the invariant that each product id
appears in at most one line and every line has quantity at least 1. -/
theorem C10_operations_preserve_invariant (product : Product)
    (productId : String) (delta : ℤ) (newPrice : Option ℚ) (newName : String)
    (cart : List CartItem) (h : CartInv cart) :
    CartInv (addToCart product cart) ∧
    CartInv (updateQuantity productId delta cart) ∧
    CartInv (cartAfterUpdatePrice productId newPrice cart) ∧
    CartInv (cartAfterUpdateName productId newName cart) ∧
    CartInv (removeFromCart productId cart) ∧
    CartInv ([] : List CartItem) := by
  obtain ⟨hnd, hq⟩ := h
  refine ⟨?_, ?_, ?_, ?_, ?_, ⟨List.nodup_nil, by simp⟩⟩
  · unfold addToCart
    by_cases hex : ∃ item ∈ cart, item.product.id = product.id
    · rw [if_pos hex]
      have hid2 : ∀ x : CartItem,
          ((if x.product.id = product.id then
              { x with quantity := x.quantity + 1 }
            else x) : CartItem).product.id = x.product.id := by
        intro x
        by_cases hx : x.product.id = product.id <;> simp [hx]
      constructor
      · rw [map_ids_eq hid2]
        exact hnd
      · intro item hitem
        obtain ⟨x, hxmem, hfx⟩ := List.mem_map.mp hitem
        have hx1 := hq x hxmem
        by_cases hx : x.product.id = product.id
        · rw [if_pos hx] at hfx
          rw [← hfx]
          show 1 ≤ x.quantity + 1
          omega
        · rw [if_neg hx] at hfx
          rw [← hfx]
          exact hx1
    · rw [if_neg hex]
      push_neg at hex
      constructor
      · rw [List.map_append]
        rw [List.nodup_append]
        refine ⟨hnd, List.nodup_singleton _, ?_⟩
        intro a ha hb
        simp only [List.map_cons, List.map_nil, List.mem_singleton] at hb
        subst hb
        obtain ⟨x, hxmem, hxid⟩ := List.mem_map.mp ha
        exact hex x hxmem hxid
      · intro item hitem
        rcases List.mem_append.mp hitem with hl | hr
        · exact hq item hl
        · simp only [List.mem_singleton] at hr
          subst hr
          exact le_refl 1
  · constructor
    · have hs := List.filter_sublist
        (l := cart.map fun item =>
          if item.product.id = productId then
            { item with quantity := max 0 (item.quantity + delta) }
          else item)
        (p := fun item => decide (0 < item.quantity))
      have := hnd
      rw [← map_ids_eq (f := fun item =>
          if item.product.id = productId then
            { item with quantity := max 0 (item.quantity + delta) }
          else item) ?hid cart] at this
      case hid =>
        intro x
        by_cases hx : x.product.id = productId <;> simp [hx]
      exact this.sublist (hs.map _)
    · intro item hitem
      unfold updateQuantity at hitem
      have := (List.mem_filter.mp hitem).2
      simp only [decide_eq_true_eq] at this
      omega
  · unfold cartAfterUpdatePrice updatePrice
    match newPrice with
    | none => exact ⟨hnd, hq⟩
    | some p =>
      by_cases hp : p ≤ 0
      · simp only [hp, if_true, Option.getD_none]
        exact ⟨hnd, hq⟩
      · simp only [hp, if_false, Option.getD_some]
        apply cartInv_map_pres
        · intro x
          by_cases hx : x.product.id = productId <;> simp [hx]
        · intro x
          by_cases hx : x.product.id = productId <;> simp [hx]
        · exact ⟨hnd, hq⟩
  · unfold cartAfterUpdateName updateName
    by_cases hn : (strTrim newName).length = 0
    · simp only [hn, if_pos]
      exact ⟨hnd, hq⟩
    · rw [if_neg hn]
      apply cartInv_map_pres
      · intro x
        by_cases hx : x.product.id = productId <;> simp [hx]
      · intro x
        by_cases hx : x.product.id = productId <;> simp [hx]
      · exact ⟨hnd, hq⟩
  · exact cartInv_sublist (List.filter_sublist cart) ⟨hnd, hq⟩

/-- Witness for C10: the invariant is preserved on the example cart. -/
theorem C10_operations_preserve_invariant_witness :
    CartInv (addToCart exProduct1 exCart) ∧
    CartInv (updateQuantity "id1" (-1) exCart) := by
  have h := C10_operations_preserve_invariant exProduct1 "id1" (-1)
    (some 750) "BW" exCart ⟨by decide, by decide⟩
  exact ⟨h.1, h.2.1⟩

end RemenPrinting
